import Mathlib

/-!
Verification of the deposition path planner and command sequencing engine of
the microfiber-tool repository (src/backend.py), against its natural-language
specification.

Real numbers of the Python source (floats) are modelled as rationals `ℚ`;
all arithmetic appearing in the claims is exact at this precision.
Python `int` values are modelled as `ℤ` (loop ranges are converted with
`Int.toNat`, matching `range(n)` being empty for `n ≤ 0`).
-/

namespace Microfiber

/-! ## Small helpers from the source -/

/-- `MachineController._clamp(v, lo, hi) = max(lo, min(hi, v))` (backend.py:471-473). -/
def clamp (v lo hi : ℚ) : ℚ := max lo (min hi v)

/-- Python 3 `round` to an integer: round half to even (banker's rounding),
modelled on exact rationals.  Used by the Legacy planner for `round(82.5 / denom)`
and `round(y + step, 2)`.  (The Python original operates on IEEE doubles; on the
inputs used in this development the rational and double computations agree.) -/
def pyRound (q : ℚ) : ℤ :=
  let f := ⌊q⌋
  let r := q - (f : ℚ)
  if r < 1 / 2 then f
  else if 1 / 2 < r then f + 1
  else if f % 2 = 0 then f else f + 1

/-- Python `round(x, 2)`: round to two decimal places, half to even. -/
def pyRound2 (q : ℚ) : ℚ := (pyRound (q * 100) : ℚ) / 100

/-- The epsilon `1e-6` used in the CustomCentered scan-loop break test
(backend.py:579, 622). -/
def epsQ : ℚ := 1 / 1000000

/-! ## Data model: the `Params` dataclass (backend.py:24-61) -/

/-- The `Params` dataclass of backend.py, field for field. -/
structure Params where
  mode : String := "Legacy"
  layers : ℤ := 1
  orientation : String := "Horizontal"
  cups : ℤ := 9
  speed : ℤ := 1500
  step : ℚ := 1 / 10
  droplet_amount : ℚ := 1
  z_hop : ℚ := 10
  pause_ms : ℤ := 0
  z_offset : ℚ := 2 / 5
  afterdrop : Bool := true
  clean : Bool := true
  syringe_current_amount : ℚ := 0
  syringe_droplet_units : ℤ := 5
  safe_x_min : ℚ := 0
  safe_x_max : ℚ := 146
  safe_y_min : ℚ := 25
  safe_y_max : ℚ := 225
  fiber_orientation : String := "Horizontal"
  fiber_length : ℚ := 80
  fiber_width : ℚ := 40
  fiber_spacing : ℚ := 1
  deriving DecidableEq, Repr

/-- The default configuration (all dataclass defaults). -/
def defaultParams : Params := {}

/-- A rectangle `(x0, x1, y0, y1)` as returned by `_compute_centered_rect`,
also used for the safe-bounds rectangle. -/
structure Rect where
  x0 : ℚ
  x1 : ℚ
  y0 : ℚ
  y1 : ℚ
  deriving DecidableEq, Repr

/-- The safe-bounds rectangle of a configuration. -/
def safeRect (p : Params) : Rect :=
  ⟨p.safe_x_min, p.safe_x_max, p.safe_y_min, p.safe_y_max⟩

/-! ## Machine commands

Each distinct `send(...)` shape of the source is one constructor; literal
commands keep their exact text, formatted commands carry their numeric
arguments (the claims never concern the decimal formatting itself). -/

/-- One textual machine command, by shape of the f-string that produces it. -/
inductive Cmd where
  /-- a fixed literal command string sent verbatim -/
  | lit (s : String)
  /-- `G1 X{x} Y{y} F{f}` -/
  | g1xyf (x y : ℚ) (f : ℤ)
  /-- `G1 Z{z} F{f}` -/
  | g1zf (z : ℚ) (f : ℤ)
  /-- `G1 X{x} Z{z} F{f}` -/
  | g1xzf (x z : ℚ) (f : ℤ)
  /-- `G1 Z{z} X{x} F{f}` -/
  | g1zxf (z x : ℚ) (f : ℤ)
  /-- `G1 Y{y} Z{z} F{f}` -/
  | g1yzf (y z : ℚ) (f : ℤ)
  /-- `G1 Z{z} Y{y} F{f}` -/
  | g1zyf (z y : ℚ) (f : ℤ)
  /-- `G1 X{x} F{f}` -/
  | g1xf (x : ℚ) (f : ℤ)
  /-- `G1 Y{y} F{f}` -/
  | g1yf (y : ℚ) (f : ℤ)
  /-- `G1 X{x}` (no feed rate) -/
  | g1xOnly (x : ℚ)
  /-- `G1 Y{y}` (no feed rate) -/
  | g1yOnly (y : ℚ)
  /-- `G1 X{x} Y{y} Z{z}` (no feed rate) -/
  | g1xyz (x y z : ℚ)
  /-- `G1 E-{e} F200` (deposition retract) -/
  | g1ef (e : ℚ)
  /-- `G1 F{f}` (restore feed rate) -/
  | g1f (f : ℤ)
  /-- `G4 P{ms}` (dwell) -/
  | g4p (ms : ℤ)
  deriving DecidableEq, Repr

/-- How a run ends (the exception raised, or normal completion). -/
inductive Outcome where
  /-- the run completed, footer included -/
  | done
  /-- `RuntimeError("Stopped")`: operator stop observed at a checkpoint -/
  | stopped
  /-- `RuntimeError("Fiber length must be > 0 and width must be >= 0")` -/
  | invalidLW
  /-- `RuntimeError("Fiber spacing must be > 0")` -/
  | invalidS
  /-- `RuntimeError("Custom area does not fit safe bounds...")`, reporting the
  requested work rectangle and the safe rectangle -/
  | outOfBounds (req safe : Rect)
  deriving DecidableEq, Repr

/-! ## Geometry Planner -/

/-- `MachineController._compute_centered_rect` (backend.py:446-469): the work
rectangle is centered at the center of the safe area; for `Horizontal`
orientation length runs along X and width along Y, otherwise the axes swap.
If the rectangle leaves the safe bounds the call fails, reporting both the
requested and the safe rectangle. -/
def compute_centered_rect (xmin xmax ymin ymax L W : ℚ) (orient : String) :
    Except (Rect × Rect) Rect :=
  let xc := (xmin + xmax) / 2
  let yc := (ymin + ymax) / 2
  let r : Rect :=
    if orient = "Horizontal" then
      ⟨xc - L / 2, xc + L / 2, yc - W / 2, yc + W / 2⟩
    else
      ⟨xc - W / 2, xc + W / 2, yc - L / 2, yc + L / 2⟩
  if r.x0 < xmin ∨ r.x1 > xmax ∨ r.y0 < ymin ∨ r.y1 > ymax then
    .error (r, ⟨xmin, xmax, ymin, ymax⟩)
  else
    .ok r

/-- `MachineController._limits_from_cups` (backend.py:662-667): `(limit_x, limit_y)`
for a cup count; any value other than 9 and 6 falls through to the 3-cup pair. -/
def limits_from_cups (cups : ℤ) : ℚ × ℚ :=
  if cups = 9 then (117, 172)
  else if cups = 6 then (91, 145)
  else (63, 117)

/-- Scan-line count of a CustomCentered layer (backend.py:562):
`n_fibers = 1 if W == 0 else int((W // S) + 1)`. -/
def nFibers (W S : ℚ) : ℕ :=
  if W = 0 then 1 else (⌊W / S⌋ + 1).toNat

/-- Serpentine direction of scan line `i` (backend.py:583-586, 625-628):
even indices run start-to-end, odd indices end-to-start. -/
def fiberEndpoints (a b : ℚ) (i : ℕ) : ℚ × ℚ :=
  if i % 2 = 0 then (a, b) else (b, a)

/-! ## Command Sequencer: shared sub-sequences

The run functions below are the static-configuration embedding of
`_run_custom_centered` and `_run_legacy`: the source re-reads
`self.state.params` before every command group ("live" parameters); with no
concurrent operator edit every such read returns the same record, which is
the situation all quantified claims range over.  Each function returns the
ordered list of commands handed to `_send_checked` together with the updated
syringe ledger. -/

/-- The fixed run header (backend.py:514-520 and 673-679): reset overrides,
disable the cold-extrusion guard, absolute positioning, absolute extrusion,
raise to travel height, zero the extruder. -/
def runHeader : List Cmd :=
  [.lit "M220 S100", .lit "M302 S0", .lit "M221 S100", .lit "G90", .lit "M82",
   .lit "G1 Z2 F1500", .lit "G92 E0"]

/-- The deposition sub-sequence `extrusion()` (backend.py:522-531 and 683-692):
relative positioning, retract `droplet_amount`, dwell 1000 ms, back to
absolute; decrements the syringe ledger by `droplet_amount`. -/
def extrusion (p : Params) (s : ℚ) : List Cmd × ℚ :=
  ([.lit "G91", .g1ef p.droplet_amount, .g4p 1000, .lit "G90"],
   s - p.droplet_amount)

/-- The afterdrop sub-sequence `afterdrop()` (backend.py:533-543 and 694-704):
relative retract of `droplet_amount` again, dwell 500 ms, absolute, restore
feed rate; decrements the syringe ledger by `droplet_amount` again. -/
def afterdrop (p : Params) (s : ℚ) : List Cmd × ℚ :=
  ([.lit "G91", .g1ef p.droplet_amount, .g4p 500, .lit "G90", .g1f p.speed],
   s - p.droplet_amount)

/-- Clean targets along X in CustomCentered mode (backend.py:604-612): 5 mm
then 10 mm past the line's end on the end side, clamped to the safe X bounds. -/
def ccCleanX (xminQ xmaxQ x0 x1 xe : ℚ) : ℚ × ℚ :=
  if xe ≥ (x0 + x1) / 2 then
    (clamp (xe + 5) xminQ xmaxQ, clamp (xe + 10) xminQ xmaxQ)
  else
    (clamp (xe - 5) xminQ xmaxQ, clamp (xe - 10) xminQ xmaxQ)

/-- Clean targets along Y in CustomCentered mode (backend.py:643-650). -/
def ccCleanY (yminQ ymaxQ y0 y1 ye : ℚ) : ℚ × ℚ :=
  if ye ≥ (y0 + y1) / 2 then
    (clamp (ye + 5) yminQ ymaxQ, clamp (ye + 10) yminQ ymaxQ)
  else
    (clamp (ye - 5) yminQ ymaxQ, clamp (ye - 10) yminQ ymaxQ)

/-- One Horizontal scan line of the CustomCentered loop, fiber index `i`
(backend.py:577-617): move to start, descend, deposit, hop, optional dwell,
travel to end, descend, optional afterdrop, optional clean, barrier. -/
def ccFiberH (p : Params) (x0 x1 y0 _y1 : ℚ) (i : ℕ) (s : ℚ) : List Cmd × ℚ :=
  let y := y0 + (i : ℚ) * p.fiber_spacing
  let se := fiberEndpoints x0 x1 i
  let ex := extrusion p s
  let ad := if p.afterdrop then afterdrop p ex.2 else ([], ex.2)
  let cl : List Cmd :=
    if p.clean then
      let ab := ccCleanX p.safe_x_min p.safe_x_max x0 x1 se.2
      [.g1xzf ab.1 0 p.speed, .g1xf ab.2 p.speed, .g1zf 3 p.speed]
    else []
  ([.g1xyf se.1 y p.speed, .g1zf p.z_offset p.speed] ++ ex.1 ++
     [.g1zf p.z_hop p.speed] ++
     (if p.pause_ms ≠ 0 then [.g4p p.pause_ms] else []) ++
     [.g1xyf se.2 y p.speed, .g1zf p.z_offset p.speed] ++ ad.1 ++ cl ++
     [.lit "M400"],
   ad.2)

/-- One Vertical scan line of the CustomCentered loop (backend.py:619-655). -/
def ccFiberV (p : Params) (_x0 _x1 y0 y1 : ℚ) (x : ℚ) (i : ℕ) (s : ℚ) :
    List Cmd × ℚ :=
  let se := fiberEndpoints y0 y1 i
  let ex := extrusion p s
  let ad := if p.afterdrop then afterdrop p ex.2 else ([], ex.2)
  let cl : List Cmd :=
    if p.clean then
      let ab := ccCleanY p.safe_y_min p.safe_y_max y0 y1 se.2
      [.g1yzf ab.1 0 p.speed, .g1yf ab.2 p.speed, .g1zf 3 p.speed]
    else []
  ([.g1xyf x se.1 p.speed, .g1zf p.z_offset p.speed] ++ ex.1 ++
     [.g1zf p.z_hop p.speed] ++
     (if p.pause_ms ≠ 0 then [.g4p p.pause_ms] else []) ++
     [.g1xyf x se.2 p.speed, .g1zf p.z_offset p.speed] ++ ad.1 ++ cl ++
     [.lit "M400"],
   ad.2)

/-- The Horizontal serpentine scan of a CustomCentered layer
(`for i in range(n_fibers)`, backend.py:568-617): `n` iterations remain,
`i` is the current fiber index; a line whose Y coordinate exceeds
`y1 + 1e-6` abandons the loop. -/
def ccLoopH (p : Params) (x0 x1 y0 y1 : ℚ) : ℕ → ℕ → ℚ → List Cmd × ℚ
  | 0, _, s => ([], s)
  | n + 1, i, s =>
    let y := y0 + (i : ℚ) * p.fiber_spacing
    if y > y1 + epsQ then ([], s)
    else
      let fc := ccFiberH p x0 x1 y0 y1 i s
      let rest := ccLoopH p x0 x1 y0 y1 n (i + 1) fc.2
      (fc.1 ++ rest.1, rest.2)

/-- The Vertical serpentine scan of a CustomCentered layer
(backend.py:568-575, 619-655): a line whose X coordinate exceeds
`x1 + 1e-6` abandons the loop. -/
def ccLoopV (p : Params) (x0 x1 y0 y1 : ℚ) : ℕ → ℕ → ℚ → List Cmd × ℚ
  | 0, _, s => ([], s)
  | n + 1, i, s =>
    let x := x0 + (i : ℚ) * p.fiber_spacing
    if x > x1 + epsQ then ([], s)
    else
      let fc := ccFiberV p x0 x1 y0 y1 x i s
      let rest := ccLoopV p x0 x1 y0 y1 n (i + 1) fc.2
      (fc.1 ++ rest.1, rest.2)

/-- One layer of the CustomCentered run (backend.py:546-655): validate the
live parameters, compute and validate the work rectangle, then raise to
travel height and run the serpentine scan. -/
def ccLayer (p : Params) (s : ℚ) : Except Outcome (List Cmd × ℚ) :=
  if p.fiber_length ≤ 0 ∨ p.fiber_width < 0 then .error .invalidLW
  else if p.fiber_spacing ≤ 0 then .error .invalidS
  else
    match compute_centered_rect p.safe_x_min p.safe_x_max p.safe_y_min
        p.safe_y_max p.fiber_length p.fiber_width p.fiber_orientation with
    | .error rs => .error (.outOfBounds rs.1 rs.2)
    | .ok r =>
      let n := nFibers p.fiber_width p.fiber_spacing
      let body :=
        if p.fiber_orientation = "Horizontal" then
          ccLoopH p r.x0 r.x1 r.y0 r.y1 n 0 s
        else
          ccLoopV p r.x0 r.x1 r.y0 r.y1 n 0 s
      .ok ([.lit "G90", .g1zf 7 p.speed] ++ body.1, body.2)

/-- The layer loop of the CustomCentered run (`for layer in range(layers)`,
backend.py:546): an error in a layer aborts the run there. -/
def ccRunLayers (p : Params) : ℕ → ℚ → List Cmd × ℚ × Option Outcome
  | 0, s => ([], s, none)
  | n + 1, s =>
    match ccLayer p s with
    | .error e => ([], s, some e)
    | .ok cs =>
      let rest := ccRunLayers p n cs.2
      (cs.1 ++ rest.1, rest.2)

/-- `MachineController._run_custom_centered` (backend.py:504-659) under a
static configuration: header, layer loop, and — only on unforced
completion — the footer (audible tone and parking move). -/
def run_custom_centered (p : Params) : List Cmd × ℚ × Outcome :=
  let body := ccRunLayers p p.layers.toNat p.syringe_current_amount
  match body.2.2 with
  | some e => (runHeader ++ body.1, body.2.1, e)
  | none =>
    (runHeader ++ body.1 ++ [.lit "M300 S440 P200", .lit "G0 X10 Y190 Z30 F3000"],
     body.2.1, .done)

/-! ## Legacy mode (`_run_legacy`, backend.py:669-901) -/

/-- One iteration of the Legacy Horizontal scan (backend.py:728-778); two
deposition events per logical line, the second after a mid-line Y increment;
the loop state is the current Y coordinate, advanced by `round(y + step, 2)`
twice per iteration; it stops when `y >= limit_y`.  The clean moves use the
raw offsets `x3 + 5`, `x3 + 10`, `x1 - 5`, `x1 - 10` with no clamping. -/
def legLoopH (p : Params) (x1 x2 x22 x3 limY : ℚ) : ℕ → ℚ → ℚ → List Cmd × ℚ
  | 0, _, s => ([], s)
  | n + 1, y, s =>
    if y ≥ limY then ([], s)
    else
      let ex1 := extrusion p s
      let ad1 := if p.afterdrop then afterdrop p ex1.2 else ([], ex1.2)
      let cl1 : List Cmd :=
        if p.clean then
          [.g1xzf (x3 + 5) 0 p.speed, .g1xf (x3 + 10) p.speed, .g1zf 3 p.speed]
        else []
      let yB := pyRound2 (y + p.step)
      let ex2 := extrusion p ad1.2
      let ad2 := if p.afterdrop then afterdrop p ex2.2 else ([], ex2.2)
      let cl2 : List Cmd :=
        if p.clean then
          [.g1xzf (x1 - 5) 0 p.speed, .g1xf (x1 - 10) p.speed, .g1zf 3 p.speed]
        else []
      let yC := pyRound2 (yB + p.step)
      let rest := legLoopH p x1 x2 x22 x3 limY n yC ad2.2
      ([.lit "G90", .g1xyf x1 y p.speed, .g1zf p.z_offset p.speed] ++ ex1.1 ++
         [.g1zf p.z_hop p.speed] ++
         (if p.pause_ms ≠ 0 then [.g4p p.pause_ms] else []) ++
         [.g1xOnly x2, .g1xzf x3 p.z_offset p.speed] ++ ad1.1 ++ cl1 ++
         [.g1xyz x3 yB p.z_offset] ++ ex2.1 ++ [.g1zf p.z_hop p.speed] ++
         (if p.pause_ms ≠ 0 then [.g4p p.pause_ms] else []) ++
         [.g1xf x22 p.speed, .g1zxf p.z_offset x1 p.speed] ++ ad2.1 ++ cl2 ++
         [.lit "M400"] ++ rest.1,
       rest.2)

/-- One iteration of the Legacy Vertical scan (backend.py:780-830); the loop
state is the current X coordinate; it stops when `x >= limit_x`. -/
def legLoopV (p : Params) (y1 y2 y22 y3 limX : ℚ) : ℕ → ℚ → ℚ → List Cmd × ℚ
  | 0, _, s => ([], s)
  | n + 1, x, s =>
    if x ≥ limX then ([], s)
    else
      let ex1 := extrusion p s
      let ad1 := if p.afterdrop then afterdrop p ex1.2 else ([], ex1.2)
      let cl1 : List Cmd :=
        if p.clean then
          [.g1yzf (y3 + 5) 0 p.speed, .g1yf (y3 + 10) p.speed, .g1zf 3 p.speed]
        else []
      let xB := pyRound2 (x + p.step)
      let ex2 := extrusion p ad1.2
      let ad2 := if p.afterdrop then afterdrop p ex2.2 else ([], ex2.2)
      let cl2 : List Cmd :=
        if p.clean then
          [.g1yzf (y1 - 5) 0 p.speed, .g1yf (y1 - 10) p.speed, .g1zf 3 p.speed]
        else []
      let xC := pyRound2 (xB + p.step)
      let rest := legLoopV p y1 y2 y22 y3 limX n xC ad2.2
      ([.lit "G90", .g1xyf x y1 p.speed, .g1zf p.z_offset p.speed] ++ ex1.1 ++
         [.g1zf p.z_hop p.speed] ++
         (if p.pause_ms ≠ 0 then [.g4p p.pause_ms] else []) ++
         [.g1yOnly y2, .g1zyf p.z_offset y3 p.speed] ++ ad1.1 ++ cl1 ++
         [.g1xyz xB y3 p.z_offset] ++ ex2.1 ++ [.g1zf p.z_hop p.speed] ++
         (if p.pause_ms ≠ 0 then [.g4p p.pause_ms] else []) ++
         [.g1yf y22 p.speed, .g1zyf p.z_offset y1 p.speed] ++ ad2.1 ++ cl2 ++
         [.lit "M400"] ++ rest.1,
       rest.2)

/-- The Horizontal quick pass of the Legacy `Both` orientation
(backend.py:836-865): one deposition per line. -/
def legBothH (p : Params) (x1 x3 limY : ℚ) : ℕ → ℚ → ℚ → List Cmd × ℚ
  | 0, _, s => ([], s)
  | n + 1, y, s =>
    if y ≥ limY then ([], s)
    else
      let ex := extrusion p s
      let ad := if p.afterdrop then afterdrop p ex.2 else ([], ex.2)
      let cl : List Cmd :=
        if p.clean then
          [.g1xzf (x3 + 5) 0 p.speed, .g1xf (x3 + 10) p.speed, .g1zf 3 p.speed]
        else []
      let yB := pyRound2 (y + p.step)
      let rest := legBothH p x1 x3 limY n yB ad.2
      ([.lit "G90", .g1xyf x1 y p.speed, .g1zf p.z_offset p.speed] ++ ex.1 ++
         [.g1zf p.z_hop p.speed] ++
         (if p.pause_ms ≠ 0 then [.g4p p.pause_ms] else []) ++
         [.g1xyf x3 y p.speed, .g1zf p.z_offset p.speed] ++ ad.1 ++ cl ++
         [.lit "M400"] ++ rest.1,
       rest.2)

/-- The Vertical quick pass of the Legacy `Both` orientation
(backend.py:867-897). -/
def legBothV (p : Params) (y1 y3 limX : ℚ) : ℕ → ℚ → ℚ → List Cmd × ℚ
  | 0, _, s => ([], s)
  | n + 1, x, s =>
    if x ≥ limX then ([], s)
    else
      let ex := extrusion p s
      let ad := if p.afterdrop then afterdrop p ex.2 else ([], ex.2)
      let cl : List Cmd :=
        if p.clean then
          [.g1yzf (y3 + 5) 0 p.speed, .g1yf (y3 + 10) p.speed, .g1zf 3 p.speed]
        else []
      let xB := pyRound2 (x + p.step)
      let rest := legBothV p y1 y3 limX n xB ad.2
      ([.lit "G90", .g1xyf x y1 p.speed, .g1zf p.z_offset p.speed] ++ ex.1 ++
         [.g1zf p.z_hop p.speed] ++
         (if p.pause_ms ≠ 0 then [.g4p p.pause_ms] else []) ++
         [.g1xyf x y3 p.speed, .g1zf p.z_offset p.speed] ++ ad.1 ++ cl ++
         [.lit "M400"] ++ rest.1,
       rest.2)

/-- One layer of the Legacy run (backend.py:706-897): cup-indexed limits,
line count `round(82.5 / (step / 2))`, per-layer calibration offsets shifted
by `layer * 3.0`, then the orientation-selected scan (`Horizontal`,
`Vertical`, or anything else → `Both`: one full Horizontal sweep followed by
one full Vertical sweep). -/
def legLayer (p : Params) (layer : ℕ) (s : ℚ) : List Cmd × ℚ :=
  let lim := limits_from_cups p.cups
  let denom : ℚ := if p.step = 0 then 1 / 1000000 else p.step / 2
  let linesCount : ℕ := (pyRound (165 / 2 / denom)).toNat
  let lq : ℚ := (layer : ℚ)
  let x1 := 51 / 2 - lq * 3
  let x2 : ℚ := 128
  let x22 : ℚ := 51 / 2
  let x3 := 128 + lq * 3
  let y1 := 79 - lq * 3
  let y2 : ℚ := 363 / 2
  let y22 := 79 - lq * 3
  let y3 := 363 / 2 + lq * 3
  let pre : List Cmd := [.lit "G90", .g1zf 7 p.speed]
  if p.orientation = "Horizontal" then
    let body := legLoopH p x1 x2 x22 x3 lim.2 linesCount 90 s
    (pre ++ body.1, body.2)
  else if p.orientation = "Vertical" then
    let body := legLoopV p y1 y2 y22 y3 lim.1 linesCount 36 s
    (pre ++ body.1, body.2)
  else
    let hPass := legBothH p x1 x3 lim.2 linesCount 89 s
    let vPass := legBothV p y1 y3 lim.1 linesCount (71 / 2) hPass.2
    (pre ++ hPass.1 ++ vPass.1, vPass.2)

/-- The Legacy layer loop (backend.py:706). -/
def legRunLayers (p : Params) : ℕ → ℕ → ℚ → List Cmd × ℚ
  | 0, _, s => ([], s)
  | n + 1, k, s =>
    let lr := legLayer p k s
    let rest := legRunLayers p n (k + 1) lr.2
    (lr.1 ++ rest.1, rest.2)

/-- `MachineController._run_legacy` (backend.py:669-901) under a static
configuration: header, layer loop, footer.  No geometry validation exists on
this path; the run always completes unless stopped or the transport fails. -/
def run_legacy (p : Params) : List Cmd × ℚ × Outcome :=
  let body := legRunLayers p p.layers.toNat 0 p.syringe_current_amount
  (runHeader ++ body.1 ++ [.lit "M300 S440 P200", .lit "G0 X10 Y190 Z30 F3000"],
   body.2, .done)

/-! ## Mode dispatch and the checkpoint gate -/

/-- `MachineController._run_drawing_loop` (backend.py:476-487): the mode is
read once at run start and selects the strategy; any string other than
`"CustomCentered"` runs Legacy. -/
def run_drawing_loop (p : Params) : List Cmd × ℚ × Outcome :=
  if p.mode = "CustomCentered" then run_custom_centered p else run_legacy p

/-- `_run_drawing_loop` with the mode field read from a live store: `modes k`
is the value of `params.mode` at the k-th read of that field during the run.
The source (backend.py:483) performs exactly one read, at run start, and the
two run strategies never access the mode field again, so only `modes 0` can
influence the run. -/
def run_drawing_loop_live (modes : ℕ → String) (p : Params) :
    List Cmd × ℚ × Outcome :=
  if modes 0 = "CustomCentered" then run_custom_centered p else run_legacy p

/-- `MachineController._send_checked` (backend.py:489-502) replayed over a
planned command list: before every command the gate is consulted; once the
operator's stop request is observable (from the n-th checkpoint on — whether
noticed directly by the stop-flag test or inside `_wait_pause_or_stop` while
paused), the command is not written and the run aborts with
`RuntimeError("Stopped")`.  `n` is the index of the first checkpoint at which
the stop is observed; `n` not smaller than the plan length means no stop
occurred during the run. -/
def exec_checked : List Cmd → Outcome → ℕ → List Cmd × Outcome
  | [], out, _ => ([], out)
  | _ :: _, _, 0 => ([], .stopped)
  | c :: rest, out, n + 1 =>
    let r := exec_checked rest out n
    (c :: r.1, r.2)

/-! ## Claim C1 and C10 theorems -/

/-- C1 counterexample: with safe rectangle X[0,170] Y[20,250], L=80, W=40,
orientation Horizontal, the Geometry Planner returns the rectangle
X[45,125] Y[115,155] centered in the safe area — not the anchored rectangle
X[0,80] Y[40,80] the claim predicts (there is no anchor parameter and no
+20 Y offset in the code). -/
theorem c1_counterexample :
    compute_centered_rect 0 170 20 250 80 40 "Horizontal" = .ok ⟨45, 125, 115, 155⟩ ∧
    compute_centered_rect 0 170 20 250 80 40 "Horizontal" ≠ .ok ⟨0, 80, 40, 80⟩ := by
  have h : compute_centered_rect 0 170 20 250 80 40 "Horizontal" =
      .ok ⟨45, 125, 115, 155⟩ := by
    have hc : ¬(((0 : ℚ) + 170) / 2 - 80 / 2 < 0 ∨ ((0 : ℚ) + 170) / 2 + 80 / 2 > 170 ∨
        ((20 : ℚ) + 250) / 2 - 40 / 2 < 20 ∨ ((20 : ℚ) + 250) / 2 + 40 / 2 > 250) := by
      norm_num
    simp only [compute_centered_rect, if_pos rfl, if_true]
    rw [if_neg hc]
    norm_num
  refine ⟨h, ?_⟩
  rw [h]
  intro hcon
  have h45 : (45 : ℚ) = 0 := congrArg Rect.x0 (Except.ok.inj hcon)
  norm_num at h45

/-- C1 (amended): for every safe rectangle and valid L, W whose centered
rectangle fits, the Geometry Planner computes the work rectangle centered at
the safe rectangle's center, with `xc, yc` the safe-area center: for
Horizontal orientation `X[xc - L/2, xc + L/2] Y[yc - W/2, yc + W/2]`, and
with the axes swapped — `X[xc - W/2, xc + W/2] Y[yc - L/2, yc + L/2]` — for
every other orientation value, Vertical in particular (the source's `else`
branch); no anchor point or Y offset is involved. -/
theorem c1_centered_rect (xmin xmax ymin ymax L W : ℚ) :
    (xmin ≤ (xmin + xmax) / 2 - L / 2 → (xmin + xmax) / 2 + L / 2 ≤ xmax →
      ymin ≤ (ymin + ymax) / 2 - W / 2 → (ymin + ymax) / 2 + W / 2 ≤ ymax →
      compute_centered_rect xmin xmax ymin ymax L W "Horizontal" =
        .ok ⟨(xmin + xmax) / 2 - L / 2, (xmin + xmax) / 2 + L / 2,
             (ymin + ymax) / 2 - W / 2, (ymin + ymax) / 2 + W / 2⟩) ∧
    (∀ orient : String, orient ≠ "Horizontal" →
      xmin ≤ (xmin + xmax) / 2 - W / 2 → (xmin + xmax) / 2 + W / 2 ≤ xmax →
      ymin ≤ (ymin + ymax) / 2 - L / 2 → (ymin + ymax) / 2 + L / 2 ≤ ymax →
      compute_centered_rect xmin xmax ymin ymax L W orient =
        .ok ⟨(xmin + xmax) / 2 - W / 2, (xmin + xmax) / 2 + W / 2,
             (ymin + ymax) / 2 - L / 2, (ymin + ymax) / 2 + L / 2⟩) := by
  constructor
  · intro h1 h2 h3 h4
    have hc : ¬((xmin + xmax) / 2 - L / 2 < xmin ∨ (xmin + xmax) / 2 + L / 2 > xmax ∨
        (ymin + ymax) / 2 - W / 2 < ymin ∨ (ymin + ymax) / 2 + W / 2 > ymax) := by
      push_neg
      exact ⟨by linarith, by linarith, by linarith, by linarith⟩
    simp only [compute_centered_rect, if_pos rfl, if_true]
    rw [if_neg hc]
  · intro orient ho h1 h2 h3 h4
    have hc : ¬((xmin + xmax) / 2 - W / 2 < xmin ∨ (xmin + xmax) / 2 + W / 2 > xmax ∨
        (ymin + ymax) / 2 - L / 2 < ymin ∨ (ymin + ymax) / 2 + L / 2 > ymax) := by
      push_neg
      exact ⟨by linarith, by linarith, by linarith, by linarith⟩
    simp only [compute_centered_rect, if_neg ho]
    rw [if_neg hc]

/-- C1 witness: the amended theorem at the claim's concrete safe rectangle
X[0,170] Y[20,250] with L=80, W=40: Horizontal yields the work rectangle
X[45,125] Y[115,155], and Vertical yields the axes-swapped rectangle
X[65,105] Y[95,175]. -/
theorem c1_centered_rect_witness :
    compute_centered_rect 0 170 20 250 80 40 "Horizontal" = .ok ⟨45, 125, 115, 155⟩ ∧
    compute_centered_rect 0 170 20 250 80 40 "Vertical" = .ok ⟨65, 105, 95, 175⟩ := by
  constructor
  · have h := (c1_centered_rect 0 170 20 250 80 40).1 (by norm_num) (by norm_num)
      (by norm_num) (by norm_num)
    convert h using 2 <;> norm_num
  · have h := (c1_centered_rect 0 170 20 250 80 40).2 "Vertical" (by decide)
      (by norm_num) (by norm_num) (by norm_num) (by norm_num)
    convert h using 2 <;> norm_num

/-- C10: the Legacy limits lookup returns `(63, 117)` for every cups value
other than 9 and 6 (no error is possible: the function is total), while
cups=9 yields `(117, 172)` and cups=6 yields `(91, 145)`. -/
theorem c10_limits_from_cups :
    (∀ c : ℤ, c ≠ 9 → c ≠ 6 → limits_from_cups c = (63, 117)) ∧
    limits_from_cups 9 = (117, 172) ∧ limits_from_cups 6 = (91, 145) := by
  refine ⟨fun c h9 h6 => ?_, rfl, rfl⟩
  simp [limits_from_cups, h9, h6]

/-- C10 witness: at the undocumented value cups=4 the lookup returns the
3-cup pair without error. -/
theorem c10_limits_from_cups_witness : limits_from_cups 4 = (63, 117) :=
  c10_limits_from_cups.1 4 (by decide) (by decide)

/-! ## C5: serpentine traversal -/

/-- C5: consecutive scan lines of a CustomCentered layer traverse the scan
axis in opposite directions: the (start, end) pair of line `i+1` is the swap
of that of line `i`; even indices run start-to-end (`(a, b)`), odd indices
end-to-start (`(b, a)`).  `fiberEndpoints` is the direction selection of
backend.py:583-586 (X axis) and 625-628 (Y axis), used by `ccLoopH`/`ccLoopV`
for every line of both orientations. -/
theorem c5_serpentine (a b : ℚ) (i : ℕ) :
    fiberEndpoints a b (i + 1) = (fiberEndpoints a b i).swap ∧
    (i % 2 = 0 → fiberEndpoints a b i = (a, b)) ∧
    (i % 2 = 1 → fiberEndpoints a b i = (b, a)) := by
  rcases Nat.even_or_odd i with ⟨k, hk⟩ | ⟨k, hk⟩
  · have h0 : i % 2 = 0 := by omega
    have h1 : (i + 1) % 2 = 1 := by omega
    simp [fiberEndpoints, h0, h1, Prod.swap]
  · have h0 : i % 2 = 1 := by omega
    have h1 : (i + 1) % 2 = 0 := by omega
    simp [fiberEndpoints, h0, h1, Prod.swap]

/-- C5 witness: at line index 0 the direction is start-to-end and line 1
reverses it. -/
theorem c5_serpentine_witness :
    fiberEndpoints (0 : ℚ) 1 1 = (fiberEndpoints (0 : ℚ) 1 0).swap ∧
    fiberEndpoints (0 : ℚ) 1 0 = (0, 1) :=
  ⟨(c5_serpentine 0 1 0).1, (c5_serpentine 0 1 0).2.1 rfl⟩

/-! ## C6: syringe ledger -/

/-- One deposition followed by its afterdrop, acting on the syringe ledger. -/
def depositShot (p : Params) (s : ℚ) : ℚ := (afterdrop p (extrusion p s).2).2

/-- `N` consecutive depositions with afterdrop enabled, acting on the ledger. -/
def depositN (p : Params) : ℕ → ℚ → ℚ
  | 0, s => s
  | n + 1, s => depositN p n (depositShot p s)

/-- C6: each deposition sub-sequence decrements the syringe ledger by exactly
`droplet_amount`, the afterdrop sub-sequence decrements it by
`droplet_amount` again, and `N` consecutive depositions with afterdrop
enabled decrement it by `2 N * droplet_amount` in total. -/
theorem c6_syringe_ledger (p : Params) (s : ℚ) :
    (extrusion p s).2 = s - p.droplet_amount ∧
    (afterdrop p s).2 = s - p.droplet_amount ∧
    ∀ N : ℕ, depositN p N s = s - 2 * N * p.droplet_amount := by
  refine ⟨rfl, rfl, fun N => ?_⟩
  induction N generalizing s with
  | zero => simp [depositN]
  | succ n ih =>
    rw [depositN, ih]
    simp only [depositShot, extrusion, afterdrop]
    push_cast
    ring

/-! ## C7: stop requests -/

/-- Replaying any plan through the `_send_checked` gate truncates it at the
first checkpoint where the stop request is observable. -/
theorem exec_checked_eq (cmds : List Cmd) (out : Outcome) (n : ℕ) :
    exec_checked cmds out n =
      (cmds.take n, if n < cmds.length then .stopped else out) := by
  induction cmds generalizing n with
  | nil => simp [exec_checked]
  | cons c rest ih =>
    cases n with
    | zero => simp [exec_checked]
    | succ m => simp [exec_checked, ih, Nat.succ_lt_succ_iff]

/-- C7: once a stop request is observable at checkpoint `n` of a run (whether
the stop-flag test fires directly or `_wait_pause_or_stop` observes it while
the run is paused — the gate of backend.py:489-502 raises `Stopped` in both
cases before the command is written), the commands that reach the transport
are exactly the strict prefix before that checkpoint, and if any command was
still pending — the footer tone and parking move included, since they occupy
the final two positions of every completed plan — the run ends as `stopped`
instead of completing. -/
theorem c7_stop_truncates (p : Params) (n : ℕ) :
    exec_checked (run_drawing_loop p).1 (run_drawing_loop p).2.2 n =
      ((run_drawing_loop p).1.take n,
       if n < (run_drawing_loop p).1.length then Outcome.stopped
       else (run_drawing_loop p).2.2) :=
  exec_checked_eq _ _ _

/-! ## C9: mode latching -/

/-- C9: the mode is latched once at run start.  Two runs from the same
configuration whose mode-field read streams agree at the single read the
code performs (backend.py:483) — in particular a run during which the mode
field is mutated at any later point — emit identical command sequences. -/
theorem c9_mode_latched (p : Params) (modes mutated : ℕ → String)
    (h : mutated 0 = modes 0) :
    run_drawing_loop_live mutated p = run_drawing_loop_live modes p := by
  simp [run_drawing_loop_live, h]

/-- C9 witness: mutating the mode to "CustomCentered" after the initial read
of a Legacy run leaves the emitted command sequence unchanged. -/
theorem c9_mode_latched_witness :
    run_drawing_loop_live (fun k => if k = 0 then "Legacy" else "CustomCentered")
        defaultParams =
      run_drawing_loop_live (fun _ => "Legacy") defaultParams :=
  c9_mode_latched defaultParams (fun _ => "Legacy")
    (fun k => if k = 0 then "Legacy" else "CustomCentered") rfl

/-! ## C4: scan-line count -/

/-- Whether a command is the per-line `M400` barrier; each scan line of the
CustomCentered loop sends exactly one, so barriers count scan lines. -/
def isM400 : Cmd → Bool
  | .lit s => s = "M400"
  | _ => false

/-- Number of scan-line barriers in a command list. -/
def countM400 (l : List Cmd) : ℕ := (l.filter isM400).length

theorem countM400_append (a b : List Cmd) :
    countM400 (a ++ b) = countM400 a + countM400 b := by
  simp [countM400, List.filter_append]

theorem countM400_fiberH (p : Params) (x0 x1 y0 y1 : ℚ) (i : ℕ) (s : ℚ) :
    countM400 (ccFiberH p x0 x1 y0 y1 i s).1 = 1 := by
  by_cases hp : p.pause_ms = 0 <;> cases haf : p.afterdrop <;> cases hcl : p.clean <;>
    simp [ccFiberH, extrusion, afterdrop, countM400, isM400, List.filter_append,
      hp, haf, hcl]

theorem countM400_fiberV (p : Params) (x0 x1 y0 y1 x : ℚ) (i : ℕ) (s : ℚ) :
    countM400 (ccFiberV p x0 x1 y0 y1 x i s).1 = 1 := by
  by_cases hp : p.pause_ms = 0 <;> cases haf : p.afterdrop <;> cases hcl : p.clean <;>
    simp [ccFiberV, extrusion, afterdrop, countM400, isM400, List.filter_append,
      hp, haf, hcl]

/-- If every planned line of the Horizontal scan lies within the work
rectangle (so the abandon test never fires), the loop emits exactly one scan
line per iteration. -/
theorem countM400_ccLoopH (p : Params) (x0 x1 y0 y1 : ℚ) :
    ∀ (n i : ℕ) (s : ℚ),
      (∀ j : ℕ, j < n → y0 + ((i + j : ℕ) : ℚ) * p.fiber_spacing ≤ y1 + epsQ) →
      countM400 (ccLoopH p x0 x1 y0 y1 n i s).1 = n := by
  intro n
  induction n with
  | zero => intro i s _; simp [ccLoopH, countM400]
  | succ m ih =>
    intro i s hj
    have h0 : y0 + (i : ℚ) * p.fiber_spacing ≤ y1 + epsQ := by
      have := hj 0 (Nat.succ_pos m)
      simpa using this
    have hrest : ∀ j : ℕ, j < m → y0 + ((i + 1 + j : ℕ) : ℚ) * p.fiber_spacing ≤ y1 + epsQ := by
      intro j hjm
      have heq : i + 1 + j = i + (j + 1) := by omega
      rw [heq]
      exact hj (j + 1) (by omega)
    rw [ccLoopH]
    rw [if_neg (not_lt.mpr h0)]
    simp only [countM400_append, countM400_fiberH]
    rw [ih (i + 1) _ hrest]
    omega

theorem countM400_ccLoopV (p : Params) (x0 x1 y0 y1 : ℚ) :
    ∀ (n i : ℕ) (s : ℚ),
      (∀ j : ℕ, j < n → x0 + ((i + j : ℕ) : ℚ) * p.fiber_spacing ≤ x1 + epsQ) →
      countM400 (ccLoopV p x0 x1 y0 y1 n i s).1 = n := by
  intro n
  induction n with
  | zero => intro i s _; simp [ccLoopV, countM400]
  | succ m ih =>
    intro i s hj
    have h0 : x0 + (i : ℚ) * p.fiber_spacing ≤ x1 + epsQ := by
      have := hj 0 (Nat.succ_pos m)
      simpa using this
    have hrest : ∀ j : ℕ, j < m → x0 + ((i + 1 + j : ℕ) : ℚ) * p.fiber_spacing ≤ x1 + epsQ := by
      intro j hjm
      have heq : i + 1 + j = i + (j + 1) := by omega
      rw [heq]
      exact hj (j + 1) (by omega)
    rw [ccLoopV]
    rw [if_neg (not_lt.mpr h0)]
    simp only [countM400_append, countM400_fiberV]
    rw [ih (i + 1) _ hrest]
    omega

/-- Shape of a successfully validated work rectangle: its extent along the
width axis is exactly `W`. -/
theorem compute_centered_rect_ok_width (xmin xmax ymin ymax L W : ℚ)
    (orient : String) (r : Rect)
    (h : compute_centered_rect xmin xmax ymin ymax L W orient = .ok r) :
    (orient = "Horizontal" → r.y1 - r.y0 = W) ∧
    (orient ≠ "Horizontal" → r.x1 - r.x0 = W) := by
  by_cases ho : orient = "Horizontal"
  · refine ⟨fun _ => ?_, fun hc => absurd ho hc⟩
    simp only [compute_centered_rect, ho, if_pos rfl, if_true] at h
    split at h
    · cases h
    · have := Except.ok.inj h
      rw [← this]
      ring
  · refine ⟨fun hc => absurd hc ho, fun _ => ?_⟩
    simp only [compute_centered_rect, if_neg ho] at h
    split at h
    · cases h
    · have := Except.ok.inj h
      rw [← this]
      ring

/-- Every planned fiber index stays within the width extent: for
`j < nFibers W S` we have `j * S ≤ W` (so the per-line abandon test of
backend.py:579/622 never fires under a static configuration). -/
theorem fiber_index_bound (W S : ℚ) (hS : 0 < S) (hW : 0 ≤ W) :
    ∀ j : ℕ, j < nFibers W S → (j : ℚ) * S ≤ W := by
  intro j hj
  by_cases hW0 : W = 0
  · have hj0 : j = 0 := by
      simp [nFibers, hW0] at hj
      omega
    simp [hj0, hW0]
  · have hj' : (j : ℤ) < ⌊W / S⌋ + 1 := by
      simp only [nFibers, if_neg hW0] at hj
      exact Int.lt_toNat.mp hj
    have hjfl : (j : ℚ) ≤ (⌊W / S⌋ : ℚ) := by
      exact_mod_cast Int.lt_add_one_iff.mp hj'
    have hle : (j : ℚ) ≤ W / S := le_trans hjfl (Int.floor_le _)
    calc (j : ℚ) * S ≤ (W / S) * S := mul_le_mul_of_nonneg_right hle (le_of_lt hS)
      _ = W := div_mul_cancel₀ W (ne_of_gt hS)

theorem countM400_runHeader : countM400 runHeader = 0 := rfl

theorem countM400_layerPre (p : Params) :
    countM400 [Cmd.lit "G90", Cmd.g1zf 7 p.speed] = 0 := rfl

theorem countM400_footer :
    countM400 [Cmd.lit "M300 S440 P200", Cmd.lit "G0 X10 Y190 Z30 F3000"] = 0 := rfl

/-- C4: in CustomCentered mode, for every valid configuration (`L > 0`,
`S > 0`, `W ≥ 0`) whose work rectangle fits the safe rectangle, the number of
scan lines emitted for a layer (counted by the one `M400` barrier each line
ends with) equals `1` when `W = 0` and `⌊W / S⌋ + 1` otherwise. -/
theorem c4_scan_line_count (p : Params) (r : Rect)
    (hL : 0 < p.fiber_length) (hS : 0 < p.fiber_spacing) (hW : 0 ≤ p.fiber_width)
    (hlay : p.layers = 1)
    (hfit : compute_centered_rect p.safe_x_min p.safe_x_max p.safe_y_min
        p.safe_y_max p.fiber_length p.fiber_width p.fiber_orientation = .ok r) :
    countM400 (run_custom_centered p).1 =
      if p.fiber_width = 0 then 1 else (⌊p.fiber_width / p.fiber_spacing⌋ + 1).toNat := by
  have hg1 : ¬(p.fiber_length ≤ 0 ∨ p.fiber_width < 0) := by
    push_neg
    exact ⟨hL, hW⟩
  have hg2 : ¬(p.fiber_spacing ≤ 0) := not_le.mpr hS
  have heps : (0 : ℚ) < epsQ := by norm_num [epsQ]
  have hbound := fiber_index_bound p.fiber_width p.fiber_spacing hS hW
  obtain ⟨hHor, hVer⟩ :=
    compute_centered_rect_ok_width _ _ _ _ _ _ _ r hfit
  have hlayer : ∃ cs, ccLayer p p.syringe_current_amount = .ok cs ∧
      countM400 cs.1 = nFibers p.fiber_width p.fiber_spacing := by
    unfold ccLayer
    rw [if_neg hg1, if_neg hg2]
    simp only [hfit]
    by_cases ho : p.fiber_orientation = "Horizontal"
    · rw [if_pos ho]
      refine ⟨_, rfl, ?_⟩
      have hw : r.y1 - r.y0 = p.fiber_width := hHor ho
      have hcnt := countM400_ccLoopH p r.x0 r.x1 r.y0 r.y1
        (nFibers p.fiber_width p.fiber_spacing) 0 p.syringe_current_amount ?_
      · simp only [countM400_append, hcnt, countM400_layerPre]
        omega
      · intro j hj
        have hjb := hbound j (by simpa using hj)
        have : ((0 + j : ℕ) : ℚ) = (j : ℚ) := by push_cast; ring
        rw [this]
        linarith
    · rw [if_neg ho]
      refine ⟨_, rfl, ?_⟩
      have hw : r.x1 - r.x0 = p.fiber_width := hVer ho
      have hcnt := countM400_ccLoopV p r.x0 r.x1 r.y0 r.y1
        (nFibers p.fiber_width p.fiber_spacing) 0 p.syringe_current_amount ?_
      · simp only [countM400_append, hcnt, countM400_layerPre]
        omega
      · intro j hj
        have hjb := hbound j (by simpa using hj)
        have : ((0 + j : ℕ) : ℚ) = (j : ℚ) := by push_cast; ring
        rw [this]
        linarith
  obtain ⟨cs, hcs, hcnt⟩ := hlayer
  have hto : p.layers.toNat = 1 := by rw [hlay]; rfl
  have hrun : ccRunLayers p 1 p.syringe_current_amount = (cs.1, cs.2, none) := by
    rw [show (1 : ℕ) = 0 + 1 from rfl, ccRunLayers, hcs]
    simp [ccRunLayers]
  unfold run_custom_centered
  rw [hto, hrun]
  simp only [countM400_append, hcnt, countM400_runHeader, countM400_footer]
  simp [nFibers]

/-- C4 witness: with the default safe area, L=80, W=0, S=1, one layer, the
run emits a single scan line. -/
theorem c4_scan_line_count_witness :
    countM400 (run_custom_centered
        { defaultParams with mode := "CustomCentered", fiber_width := 0 }).1 =
      if (0 : ℚ) = 0 then 1 else ((⌊(0 : ℚ) / 1⌋ + 1).toNat) := by
  have h := c4_scan_line_count
    { defaultParams with mode := "CustomCentered", fiber_width := 0 }
    ⟨33, 113, 125, 125⟩ (by norm_num [defaultParams]) (by norm_num [defaultParams])
    (by norm_num [defaultParams]) rfl ?_
  · exact h
  · show compute_centered_rect 0 146 25 225 80 0 "Horizontal" = .ok ⟨33, 113, 125, 125⟩
    have hc : ¬(((0 : ℚ) + 146) / 2 - 80 / 2 < 0 ∨ ((0 : ℚ) + 146) / 2 + 80 / 2 > 146 ∨
        ((25 : ℚ) + 225) / 2 - 0 / 2 < 25 ∨ ((25 : ℚ) + 225) / 2 + 0 / 2 > 225) := by
      norm_num
    simp only [compute_centered_rect, if_pos rfl, if_true]
    rw [if_neg hc]
    norm_num

/-! ## C2: out-of-bounds geometry -/

/-- C2 (amended): in CustomCentered mode, whenever the derived work rectangle
exceeds the safe rectangle on any edge, the run fails with OutOfBounds
reporting both the requested and the safe rectangle, and no command beyond
the fixed 7-command header is sent — the header has already been written
before geometry validation runs, so in particular no motion, deposition or
footer command of the layer reaches the transport. -/
theorem c2_out_of_bounds (p : Params) (req safeR : Rect)
    (hL : 0 < p.fiber_length) (hW : 0 ≤ p.fiber_width) (hS : 0 < p.fiber_spacing)
    (hlay : 1 ≤ p.layers)
    (herr : compute_centered_rect p.safe_x_min p.safe_x_max p.safe_y_min
        p.safe_y_max p.fiber_length p.fiber_width p.fiber_orientation =
          .error (req, safeR)) :
    run_custom_centered p =
      (runHeader, p.syringe_current_amount, .outOfBounds req safeR) := by
  have hg1 : ¬(p.fiber_length ≤ 0 ∨ p.fiber_width < 0) := by
    push_neg
    exact ⟨hL, hW⟩
  have hg2 : ¬(p.fiber_spacing ≤ 0) := not_le.mpr hS
  have hlayer : ccLayer p p.syringe_current_amount =
      .error (.outOfBounds req safeR) := by
    unfold ccLayer
    rw [if_neg hg1, if_neg hg2]
    simp only [herr]
  have hm : p.layers.toNat = (p.layers.toNat - 1) + 1 := by omega
  have hrun : ccRunLayers p p.layers.toNat p.syringe_current_amount =
      ([], p.syringe_current_amount, some (.outOfBounds req safeR)) := by
    rw [hm, ccRunLayers, hlayer]
  unfold run_custom_centered
  rw [hrun]
  rfl

/-- The configuration of the C2 concrete scenario: safe rectangle X[0,170]
Y[20,250], L=200, W=40, S=1, Horizontal, one layer. -/
def c2Params : Params :=
  { defaultParams with
      mode := "CustomCentered"
      safe_x_max := 170
      safe_y_min := 20
      safe_y_max := 250
      fiber_length := 200 }

theorem c2_rect_error :
    compute_centered_rect 0 170 20 250 200 40 "Horizontal" =
      .error (⟨-15, 185, 115, 155⟩, ⟨0, 170, 20, 250⟩) := by
  have hc : (((0 : ℚ) + 170) / 2 - 200 / 2 < 0 ∨ ((0 : ℚ) + 170) / 2 + 200 / 2 > 170 ∨
      ((20 : ℚ) + 250) / 2 - 40 / 2 < 20 ∨ ((20 : ℚ) + 250) / 2 + 40 / 2 > 250) := by
    norm_num
  simp only [compute_centered_rect, if_pos rfl, if_true]
  rw [if_pos hc]
  norm_num

/-- C2 witness: the amended theorem at the concrete scenario — the run sends
exactly the 7 header commands and fails with OutOfBounds carrying the
requested rectangle X[-15,185] Y[115,155] and the safe rectangle X[0,170]
Y[20,250]. -/
theorem c2_out_of_bounds_witness :
    run_custom_centered c2Params =
      (runHeader, 0, .outOfBounds ⟨-15, 185, 115, 155⟩ ⟨0, 170, 20, 250⟩) := by
  have h := c2_out_of_bounds c2Params ⟨-15, 185, 115, 155⟩ ⟨0, 170, 20, 250⟩
    (by norm_num [c2Params, defaultParams]) (by norm_num [c2Params, defaultParams])
    (by norm_num [c2Params, defaultParams]) (by norm_num [c2Params, defaultParams])
    c2_rect_error
  simpa [c2Params, defaultParams] using h

/-- C2 counterexample: in the concrete scenario the run does fail with
OutOfBounds reporting both rectangles, but the commands sent over the
transport are the 7 header commands, not zero — refuting the claim's "zero
commands are sent". -/
theorem c2_counterexample :
    (run_custom_centered c2Params).1 = runHeader ∧
    (run_custom_centered c2Params).1 ≠ [] ∧
    (run_custom_centered c2Params).2.2 =
      .outOfBounds ⟨-15, 185, 115, 155⟩ ⟨0, 170, 20, 250⟩ := by
  have hlayer : ccLayer c2Params 0 =
      .error (.outOfBounds ⟨-15, 185, 115, 155⟩ ⟨0, 170, 20, 250⟩) := by
    unfold ccLayer
    rw [if_neg (by norm_num [c2Params, defaultParams]),
        if_neg (by norm_num [c2Params, defaultParams])]
    have hcc : compute_centered_rect c2Params.safe_x_min c2Params.safe_x_max
        c2Params.safe_y_min c2Params.safe_y_max c2Params.fiber_length
        c2Params.fiber_width c2Params.fiber_orientation =
          .error (⟨-15, 185, 115, 155⟩, ⟨0, 170, 20, 250⟩) := c2_rect_error
    simp only [hcc]
  have hrun : ccRunLayers c2Params c2Params.layers.toNat 0 =
      ([], 0, some (.outOfBounds ⟨-15, 185, 115, 155⟩ ⟨0, 170, 20, 250⟩)) := by
    rw [show c2Params.layers.toNat = 0 + 1 from rfl, ccRunLayers, hlayer]
  have hfull : run_custom_centered c2Params =
      (runHeader, 0, .outOfBounds ⟨-15, 185, 115, 155⟩ ⟨0, 170, 20, 250⟩) := by
    unfold run_custom_centered
    rw [show c2Params.syringe_current_amount = 0 from rfl, hrun]
    rfl
  refine ⟨by rw [hfull], ?_, by rw [hfull]⟩
  rw [hfull]
  simp [runHeader]

/-! ## C8: clean moves and the safe rectangle -/

/-- C8 (amended, CustomCentered part): the clean travel targets of
CustomCentered mode are clamped to the safe bounds, so whenever the safe
interval is non-degenerate they land inside it, on both axes. -/
theorem c8_cc_clean_clamped (lo hi a b e : ℚ) (h : lo ≤ hi) :
    (lo ≤ (ccCleanX lo hi a b e).1 ∧ (ccCleanX lo hi a b e).1 ≤ hi) ∧
    (lo ≤ (ccCleanX lo hi a b e).2 ∧ (ccCleanX lo hi a b e).2 ≤ hi) ∧
    (lo ≤ (ccCleanY lo hi a b e).1 ∧ (ccCleanY lo hi a b e).1 ≤ hi) ∧
    (lo ≤ (ccCleanY lo hi a b e).2 ∧ (ccCleanY lo hi a b e).2 ≤ hi) := by
  have hcl : ∀ v : ℚ, lo ≤ clamp v lo hi ∧ clamp v lo hi ≤ hi := fun v =>
    ⟨le_max_left _ _, max_le h (min_le_left _ _)⟩
  unfold ccCleanX ccCleanY
  split_ifs <;> exact ⟨hcl _, hcl _, hcl _, hcl _⟩

/-- C8 witness: the clamped-clean theorem at the default safe X interval
[0, 146] and a line ending at `e = 80`. -/
theorem c8_cc_clean_clamped_witness :
    ((0 : ℚ) ≤ (ccCleanX 0 146 0 80 80).1 ∧ (ccCleanX 0 146 0 80 80).1 ≤ 146) ∧
    ((0 : ℚ) ≤ (ccCleanX 0 146 0 80 80).2 ∧ (ccCleanX 0 146 0 80 80).2 ≤ 146) ∧
    ((0 : ℚ) ≤ (ccCleanY 0 146 0 80 80).1 ∧ (ccCleanY 0 146 0 80 80).1 ≤ 146) ∧
    ((0 : ℚ) ≤ (ccCleanY 0 146 0 80 80).2 ∧ (ccCleanY 0 146 0 80 80).2 ≤ 146) :=
  c8_cc_clean_clamped 0 146 0 80 80 (by norm_num)

/-- The configuration of the C8 counterexample: Legacy mode with its default
calibration (cups=9, Horizontal), one layer, a large step so the layer has a
single scan line, clean enabled, and a safe rectangle whose X maximum (100)
lies below the fixed Legacy clean targets. -/
def c8Params : Params :=
  { defaultParams with safe_x_max := 100, step := 200, afterdrop := false }

/-- C8 counterexample: in Legacy mode the first clean move of the first scan
line is `G1 X133 Z0` (x3 + 5 = 128 + 5 with no clamping), which lies outside
the safe rectangle X[0,100] of the configuration — refuting the claim that
clean targets are clamped to the safe bounds in every mode. -/
theorem c8_counterexample :
    Cmd.g1xzf 133 0 1500 ∈ (run_legacy c8Params).1 ∧
    c8Params.safe_x_max < 133 ∧ c8Params.clean = true := by
  refine ⟨?_, by norm_num [c8Params, defaultParams], rfl⟩
  unfold run_legacy
  norm_num [c8Params, defaultParams, legRunLayers, legLayer, legLoopH,
    limits_from_cups, pyRound, extrusion, runHeader, List.mem_append]

/-! ## Transport Protocol Handler (`_send_and_wait_ok`, backend.py:331-366)

Python string primitives are modelled character-by-character (`str.strip`,
`str.lower`, `str.startswith`, the `in` substring test), so that the
classification is executable.  A response channel is a list of reads
`(d, raw)`: the raw line (possibly empty — an idle `readline` poll) together
with the time `d` the read took; the loop checks `time.time() < deadline`
before each read, so read `i` happens exactly when the total time consumed
before it is below the timeout — no classification ever resets or extends
the deadline. -/

/-- Whitespace characters of Python `str.strip()`. -/
def isPySpace (c : Char) : Bool :=
  c == ' ' || c == '\t' || c == '\n' || c == '\r' || c == '\x0b' || c == '\x0c'

/-- Strip leading and trailing whitespace from a character list. -/
def stripList (l : List Char) : List Char :=
  ((l.dropWhile isPySpace).reverse.dropWhile isPySpace).reverse

/-- Python `raw.strip()`. -/
def pyStrip (s : String) : String := ⟨stripList s.data⟩

/-- ASCII lowering of one character (Python `str.lower` restricted to the
ASCII command alphabet the firmware uses). -/
def lowerAscii (c : Char) : Char :=
  if 'A' ≤ c ∧ c ≤ 'Z' then Char.ofNat (c.toNat + 32) else c

/-- Python `line.lower()`. -/
def pyLower (s : String) : String := ⟨s.data.map lowerAscii⟩

/-- Is the first list a prefix of the second? -/
def listLeads : List Char → List Char → Bool
  | [], _ => true
  | _ :: _, [] => false
  | a :: as, b :: bs => a == b && listLeads as bs

/-- Python `s.startswith(pat)`; note `low == "ok" or low.startswith("ok")`
of the source is equivalent to the bare `startswith`. -/
def pyStartsWith (s pat : String) : Bool := listLeads pat.data s.data

/-- Does `pat` occur as a contiguous run in the list? -/
def listHasSub (pat : List Char) : List Char → Bool
  | [] => pat.isEmpty
  | c :: rest => listLeads pat (c :: rest) || listHasSub pat rest

/-- Python `pat in s`. -/
def pyContains (s pat : String) : Bool := listHasSub pat.data s.data

/-- How one raw response line is classified by the loop body of
`_send_and_wait_ok` (backend.py:344-361), in the source's check order:
empty/whitespace-only lines are skipped, then the ack prefix `ok` wins, then
the `busy` marker, then the `error` marker; anything else falls through and
the loop continues. -/
inductive LineClass where
  | skip
  | ack
  | busy
  | err
  | other
  deriving DecidableEq, Repr

/-- Classification of a raw line, exactly in the source's order. -/
def classifyLine (raw : String) : LineClass :=
  let line := pyStrip raw
  if line.data.isEmpty then .skip
  else
    let low := pyLower line
    if pyStartsWith low "ok" then .ack
    else if pyContains low "busy" then .busy
    else if pyContains low "error" then .err
    else .other

/-- Result of one `_send_and_wait_ok` exchange. -/
inductive AwaitResult where
  /-- the ack line arrived: the call returns normally -/
  | ok
  /-- `RuntimeError("Firmware error after ...")` carrying the offending line -/
  | fwError (line : String)
  /-- `TimeoutError` carrying the last non-empty line read, if any -/
  | timedOut (last : Option String)
  deriving DecidableEq, Repr

/-- The read loop of `_send_and_wait_ok` (backend.py:341-366): `t` is the
time already consumed, `last` the last non-empty line seen.  The deadline
test `time.time() < deadline` precedes every read; an exhausted channel only
ever produces idle polls afterwards, so it times out with the accumulated
`last`. -/
def awaitLoop (τ : ℚ) : List (ℚ × String) → ℚ → Option String → AwaitResult
  | [], _, last => .timedOut last
  | (d, raw) :: rest, t, last =>
    if τ ≤ t then .timedOut last
    else
      match classifyLine raw with
      | .skip => awaitLoop τ rest (t + d) last
      | .ack => .ok
      | .busy => awaitLoop τ rest (t + d) (some (pyStrip raw))
      | .err => .fwError (pyStrip raw)
      | .other => awaitLoop τ rest (t + d) (some (pyStrip raw))

/-- `_send_and_wait_ok(command, timeout_s)` against a response channel: one
newline-terminated command is written, then the read loop runs from time 0
with no line seen yet. -/
def send_and_wait_ok (τ : ℚ) (reads : List (ℚ × String)) : AwaitResult :=
  awaitLoop τ reads 0 none

/-- Total time consumed by the first `i` reads of the channel. -/
def preTime (reads : List (ℚ × String)) (i : ℕ) : ℚ :=
  ((reads.take i).map Prod.fst).sum

/-- The last non-empty (stripped) line among the reads that happen before
the deadline, starting from accumulated time `t` and memory `last`. -/
def lastSeen (τ : ℚ) : List (ℚ × String) → ℚ → Option String → Option String
  | [], _, last => last
  | (d, raw) :: rest, t, last =>
    if τ ≤ t then last
    else
      match classifyLine raw with
      | .skip => lastSeen τ rest (t + d) last
      | _ => lastSeen τ rest (t + d) (some (pyStrip raw))

/-- A line classification on which the loop keeps reading. -/
def Continues (c : LineClass) : Prop := c ≠ .ack ∧ c ≠ .err

/-- Declarative reading of the loop: some read `i` happens strictly before
the absolute deadline, its line satisfies `P`, and every earlier line was a
non-decisive one (busy, other, or empty). -/
def FirstHit (τ t : ℚ) (reads : List (ℚ × String)) (P : String → Prop) : Prop :=
  ∃ i, ∃ hi : i < reads.length,
    t + preTime reads i < τ ∧
    P (reads.get ⟨i, hi⟩).2 ∧
    ∀ j, ∀ hj : j < reads.length, j < i →
      Continues (classifyLine (reads.get ⟨j, hj⟩).2)

theorem preTime_cons_succ (x : ℚ × String) (l : List (ℚ × String)) (i : ℕ) :
    preTime (x :: l) (i + 1) = x.1 + preTime l i := by
  simp [preTime]

theorem preTime_nonneg (l : List (ℚ × String)) (h : ∀ p ∈ l, 0 ≤ p.1) (i : ℕ) :
    0 ≤ preTime l i := by
  apply List.sum_nonneg
  intro x hx
  rcases List.mem_map.mp hx with ⟨p, hp, rfl⟩
  exact h p (List.take_subset _ _ hp)

/-- Shifting a `FirstHit` across a non-decisive head read. -/
theorem firstHit_cons (τ t d : ℚ) (raw : String) (tl : List (ℚ × String))
    (P : String → Prop) (hcont : Continues (classifyLine raw)) (hnP : ¬P raw) :
    FirstHit τ t ((d, raw) :: tl) P ↔ FirstHit τ (t + d) tl P := by
  constructor
  · rintro ⟨i, hi, hlt, hPi, hprev⟩
    cases i with
    | zero => exact absurd hPi hnP
    | succ i' =>
      refine ⟨i', Nat.lt_of_succ_lt_succ hi, ?_, hPi, ?_⟩
      · rw [preTime_cons_succ] at hlt
        linarith
      · intro j hj hji
        exact hprev (j + 1) (Nat.succ_lt_succ hj) (Nat.succ_lt_succ hji)
  · rintro ⟨i, hi, hlt, hPi, hprev⟩
    refine ⟨i + 1, Nat.succ_lt_succ hi, ?_, hPi, ?_⟩
    · rw [preTime_cons_succ]
      linarith
    · intro j hj hji
      cases j with
      | zero => exact hcont
      | succ j' => exact hprev j' (Nat.lt_of_succ_lt_succ hj) (Nat.lt_of_succ_lt_succ hji)

/-- The complete characterisation of the read loop, by induction on the
channel: success states, firmware-error states, and the timeout payload. -/
theorem awaitLoop_spec (τ : ℚ) :
    ∀ (reads : List (ℚ × String)) (t : ℚ) (last : Option String),
      (∀ p ∈ reads, 0 ≤ p.1) →
      ((awaitLoop τ reads t last = .ok ↔
          FirstHit τ t reads (fun s => classifyLine s = .ack)) ∧
       (∀ ℓ, awaitLoop τ reads t last = .fwError ℓ ↔
          FirstHit τ t reads (fun s => classifyLine s = .err ∧ pyStrip s = ℓ)) ∧
       (∀ l, awaitLoop τ reads t last = .timedOut l → l = lastSeen τ reads t last)) := by
  intro reads
  induction reads with
  | nil =>
    intro t last _
    refine ⟨?_, fun ℓ => ?_, fun l h => ?_⟩
    · constructor
      · intro h
        exact AwaitResult.noConfusion h
      · rintro ⟨i, hi, _⟩
        exact absurd hi (Nat.not_lt_zero i)
    · constructor
      · intro h
        exact AwaitResult.noConfusion h
      · rintro ⟨i, hi, _⟩
        exact absurd hi (Nat.not_lt_zero i)
    · exact (AwaitResult.timedOut.inj h).symm
  | cons hd tl ih =>
    obtain ⟨d, raw⟩ := hd
    intro t last hnn
    have hnn' : ∀ p ∈ tl, 0 ≤ p.1 := fun p hp => hnn p (List.mem_cons_of_mem _ hp)
    by_cases hdl : τ ≤ t
    · have hstep : awaitLoop τ ((d, raw) :: tl) t last = .timedOut last := by
        simp only [awaitLoop]
        rw [if_pos hdl]
      have hnofh : ∀ P : String → Prop, ¬FirstHit τ t ((d, raw) :: tl) P := by
        rintro P ⟨i, hi, hlt, _⟩
        have h0 : 0 ≤ preTime ((d, raw) :: tl) i := preTime_nonneg _ hnn i
        linarith
      refine ⟨?_, fun ℓ => ?_, fun l h => ?_⟩
      · rw [hstep]
        exact ⟨fun h => AwaitResult.noConfusion h, fun h => absurd h (hnofh _)⟩
      · rw [hstep]
        exact ⟨fun h => AwaitResult.noConfusion h, fun h => absurd h (hnofh _)⟩
      · rw [hstep] at h
        have hls : lastSeen τ ((d, raw) :: tl) t last = last := by
          simp only [lastSeen]
          rw [if_pos hdl]
        rw [hls]
        exact (AwaitResult.timedOut.inj h).symm
    · have ht : t < τ := not_le.mp hdl
      cases hcl : classifyLine raw with
      | skip =>
        have hstep : awaitLoop τ ((d, raw) :: tl) t last = awaitLoop τ tl (t + d) last := by
          simp only [awaitLoop]
          rw [if_neg hdl, hcl]
        have hls : lastSeen τ ((d, raw) :: tl) t last = lastSeen τ tl (t + d) last := by
          simp only [lastSeen]
          rw [if_neg hdl, hcl]
        have hcont : Continues (classifyLine raw) := by
          rw [hcl]
          exact ⟨by decide, by decide⟩
        refine ⟨?_, fun ℓ => ?_, fun l h => ?_⟩
        · rw [hstep, (ih (t + d) last hnn').1]
          exact (firstHit_cons τ t d raw tl _ hcont
            (fun hP => by rw [hcl] at hP; exact LineClass.noConfusion hP)).symm
        · rw [hstep, (ih (t + d) last hnn').2.1 ℓ]
          exact (firstHit_cons τ t d raw tl _ hcont
            (fun hP => by rw [hcl] at hP; exact LineClass.noConfusion hP.1)).symm
        · rw [hstep] at h
          rw [hls]
          exact (ih (t + d) last hnn').2.2 l h
      | ack =>
        have hstep : awaitLoop τ ((d, raw) :: tl) t last = .ok := by
          simp only [awaitLoop]
          rw [if_neg hdl, hcl]
        refine ⟨?_, fun ℓ => ?_, fun l h => ?_⟩
        · rw [hstep]
          constructor
          · intro _
            refine ⟨0, Nat.succ_pos _, ?_, hcl, fun j hj hj0 => absurd hj0 (Nat.not_lt_zero j)⟩
            simp only [preTime, List.take_zero, List.map_nil, List.sum_nil, add_zero]
            exact ht
          · intro _
            rfl
        · rw [hstep]
          constructor
          · intro h
            exact AwaitResult.noConfusion h
          · rintro ⟨i, hi, hlt, hPi, hprev⟩
            cases i with
            | zero =>
              have h1 : classifyLine raw = .err := hPi.1
              rw [hcl] at h1
              exact LineClass.noConfusion h1
            | succ i' =>
              have hc2 : Continues (classifyLine raw) :=
                hprev 0 (Nat.succ_pos _) (Nat.succ_pos i')
              rw [hcl] at hc2
              exact absurd rfl hc2.1
        · rw [hstep] at h
          exact AwaitResult.noConfusion h
      | busy =>
        have hstep : awaitLoop τ ((d, raw) :: tl) t last =
            awaitLoop τ tl (t + d) (some (pyStrip raw)) := by
          simp only [awaitLoop]
          rw [if_neg hdl, hcl]
        have hls : lastSeen τ ((d, raw) :: tl) t last =
            lastSeen τ tl (t + d) (some (pyStrip raw)) := by
          simp only [lastSeen]
          rw [if_neg hdl, hcl]
        have hcont : Continues (classifyLine raw) := by
          rw [hcl]
          exact ⟨by decide, by decide⟩
        refine ⟨?_, fun ℓ => ?_, fun l h => ?_⟩
        · rw [hstep, (ih (t + d) (some (pyStrip raw)) hnn').1]
          exact (firstHit_cons τ t d raw tl _ hcont
            (fun hP => by rw [hcl] at hP; exact LineClass.noConfusion hP)).symm
        · rw [hstep, (ih (t + d) (some (pyStrip raw)) hnn').2.1 ℓ]
          exact (firstHit_cons τ t d raw tl _ hcont
            (fun hP => by rw [hcl] at hP; exact LineClass.noConfusion hP.1)).symm
        · rw [hstep] at h
          rw [hls]
          exact (ih (t + d) (some (pyStrip raw)) hnn').2.2 l h
      | err =>
        have hstep : awaitLoop τ ((d, raw) :: tl) t last = .fwError (pyStrip raw) := by
          simp only [awaitLoop]
          rw [if_neg hdl, hcl]
        refine ⟨?_, fun ℓ => ?_, fun l h => ?_⟩
        · rw [hstep]
          constructor
          · intro h
            exact AwaitResult.noConfusion h
          · rintro ⟨i, hi, hlt, hPi, hprev⟩
            cases i with
            | zero =>
              have h1 : classifyLine raw = .ack := hPi
              rw [hcl] at h1
              exact LineClass.noConfusion h1
            | succ i' =>
              have hc2 : Continues (classifyLine raw) :=
                hprev 0 (Nat.succ_pos _) (Nat.succ_pos i')
              rw [hcl] at hc2
              exact absurd rfl hc2.2
        · rw [hstep]
          constructor
          · intro h
            have h2 := AwaitResult.fwError.inj h
            refine ⟨0, Nat.succ_pos _, ?_, ⟨hcl, h2⟩,
              fun j hj hj0 => absurd hj0 (Nat.not_lt_zero j)⟩
            simp only [preTime, List.take_zero, List.map_nil, List.sum_nil, add_zero]
            exact ht
          · rintro ⟨i, hi, hlt, hPi, hprev⟩
            cases i with
            | zero =>
              have h2 : pyStrip raw = ℓ := hPi.2
              rw [h2]
            | succ i' =>
              have hc2 : Continues (classifyLine raw) :=
                hprev 0 (Nat.succ_pos _) (Nat.succ_pos i')
              rw [hcl] at hc2
              exact absurd rfl hc2.2
        · rw [hstep] at h
          exact AwaitResult.noConfusion h
      | other =>
        have hstep : awaitLoop τ ((d, raw) :: tl) t last =
            awaitLoop τ tl (t + d) (some (pyStrip raw)) := by
          simp only [awaitLoop]
          rw [if_neg hdl, hcl]
        have hls : lastSeen τ ((d, raw) :: tl) t last =
            lastSeen τ tl (t + d) (some (pyStrip raw)) := by
          simp only [lastSeen]
          rw [if_neg hdl, hcl]
        have hcont : Continues (classifyLine raw) := by
          rw [hcl]
          exact ⟨by decide, by decide⟩
        refine ⟨?_, fun ℓ => ?_, fun l h => ?_⟩
        · rw [hstep, (ih (t + d) (some (pyStrip raw)) hnn').1]
          exact (firstHit_cons τ t d raw tl _ hcont
            (fun hP => by rw [hcl] at hP; exact LineClass.noConfusion hP)).symm
        · rw [hstep, (ih (t + d) (some (pyStrip raw)) hnn').2.1 ℓ]
          exact (firstHit_cons τ t d raw tl _ hcont
            (fun hP => by rw [hcl] at hP; exact LineClass.noConfusion hP.1)).symm
        · rw [hstep] at h
          rw [hls]
          exact (ih (t + d) (some (pyStrip raw)) hnn').2.2 l h

/-- The C3 concrete channel: `busy\n` every second for 10 s, then `ok\n`. -/
def busyChannel : List (ℚ × String) :=
  List.replicate 10 ((1 : ℚ), "busy\n") ++ [((1 : ℚ), "ok\n")]

theorem classify_busy : classifyLine "busy\n" = .busy := rfl

theorem pyStrip_busy : pyStrip "busy\n" = "busy" := rfl

/-- C3: `send_and_wait_ok` succeeds if and only if a line classified as the
ack token (equal to or starting with `ok` after strip/lower) is read before
any error-classified line and strictly before the absolute deadline; an
error-classified line read before the deadline fails with `FirmwareError`
carrying that (stripped) line; a timeout carries the last non-empty line
read; and the deadline is absolute — busy lines and empty reads never extend
it, so the channel sending `busy` every second for 10 s and only then `ok`
times out against a 5-second deadline with `busy` as the last line. -/
theorem c3_send_and_wait_ok (τ : ℚ) (reads : List (ℚ × String))
    (hnn : ∀ p ∈ reads, 0 ≤ p.1) :
    (send_and_wait_ok τ reads = .ok ↔
      FirstHit τ 0 reads (fun s => classifyLine s = .ack)) ∧
    (∀ ℓ, send_and_wait_ok τ reads = .fwError ℓ ↔
      FirstHit τ 0 reads (fun s => classifyLine s = .err ∧ pyStrip s = ℓ)) ∧
    (∀ l, send_and_wait_ok τ reads = .timedOut l → l = lastSeen τ reads 0 none) ∧
    send_and_wait_ok 5 busyChannel = .timedOut (some "busy") := by
  obtain ⟨h1, h2, h3⟩ := awaitLoop_spec τ reads 0 none hnn
  refine ⟨h1, h2, h3, ?_⟩
  norm_num [send_and_wait_ok, busyChannel, List.replicate, awaitLoop,
    classify_busy, pyStrip_busy]

/-- C3 witness: the theorem applied to the concrete busy channel with its
5-second deadline: the call times out carrying `busy` as the last line. -/
theorem c3_send_and_wait_ok_witness :
    send_and_wait_ok 5 busyChannel = .timedOut (some "busy") :=
  (c3_send_and_wait_ok 5 busyChannel
    (by norm_num [busyChannel, List.mem_replicate])).2.2.2

end Microfiber
